import Mathlib

/-!
Shallow embedding of the buri-simulator core (burisim/sim.py, burisim/acia.py,
burisim/lib6502.py, burisim/_lib6502_build.py) and proofs about it.

Conventions:
* Machine memory is embedded as a total function `ℕ → ℕ`: `mpu.memory` is a
  cffi `uint8_t *` pointer, whose indexing the Python layer never bounds-checks.
* Python exceptions are embedded as `Except SimErr`: a function that can raise
  returns `Except SimErr σ`.
* Python's `x & ~mask` on a nonnegative int clears exactly the bits of `mask`,
  embedded as `andNot x mask = x - (x &&& mask)`.
* Effectful callables that the code calls out to (the ACIA's `_set_reg_cb`
  register mirror, the serial port) are embedded by recording their observable
  effect in the state (`cb_log`, `serial_out`).
-/

/-- Python's `x &= ~m` on an unbounded nonnegative int clears in `x` exactly
the bits set in `m`. The set bits of `x &&& m` are a subset of the set bits of
`x`, so this equals `x - (x &&& m)` — embedded in that arithmetic form (rather
than `Nat.ldiff`) so that the kernel can evaluate it on closed inputs. -/
def andNot (x m : ℕ) : ℕ := x - (x &&& m)

/-- The exceptions the embedded code can raise: `ReadOnlyMemoryError(address,
value)` from sim.py, Python's `TypeError` for calling a non-callable (`None`)
and `IndexError(idx)` from `ACIA.write_reg`/`ACIA.read_reg`. -/
inductive SimErr : Type where
  | readOnly (address value : ℕ)
  | notCallable
  | indexError (idx : ℕ)
  deriving DecidableEq, Repr

/-- State of one ACIA device (class `ACIA`, acia.py). The four registers and
the input FIFO are as in `ACIA.__init__`; the serial port is embedded by
`serial_attached` (is `serial_port` not `None`?), `serial_in` (bytes the port
currently has available to read) and `serial_out` (bytes written to the port
with `putChar`); `set_reg_cb` records whether a callable `_set_reg_cb` was
supplied (`None` otherwise) and `cb_log` the `(number, value)` calls made to
it. -/
structure AciaState : Type where
  serial_attached : Bool
  serial_in : List ℕ
  serial_out : List ℕ
  recv_data : ℕ
  status_reg : ℕ
  command_reg : ℕ
  control_reg : ℕ
  set_reg_cb : Bool
  in_buffer : List ℕ
  cb_log : List (ℕ × ℕ)
  deriving DecidableEq, Repr

/-- A direct call `self._set_reg_cb(number, value)` as made by `hw_reset`,
`_prog_reset`, `poll`, `_tx`, `_trigger_irq` and `write_reg`: if the callback
is `None` (constructor default) Python raises `TypeError`; otherwise the call
is recorded. (The `None`-guarded helper `_note_reg_update` exists in the
source but is never called.) -/
def ACIA.set_reg_call (st : AciaState) (number value : ℕ) : Except SimErr AciaState :=
  if st.set_reg_cb then .ok { st with cb_log := st.cb_log ++ [(number, value)] }
  else .error .notCallable

/-- `ACIA._trigger_irq` (acia.py lines 151-156): only when bits 3:2 of the
*control* register equal `01` does it set the IRQ (bit 7) and TDRE (bit 4)
status bits (`0b10010000 = 144`) and mirror the status register; it never
touches a processor interrupt line (the source carries a FIXME there). -/
def ACIA.trigger_irq (st : AciaState) : Except SimErr AciaState :=
  if st.control_reg &&& 12 = 4 then
    let st1 := { st with status_reg := st.status_reg ||| 144 }
    ACIA.set_reg_call st1 1 st1.status_reg
  else .ok st

/-- `ACIA.hw_reset` (acia.py lines 94-102): status `0b00010000`, control and
command `0`, then three unconditional `_set_reg_cb` calls.
(`_update_serial_port` begins with a bare `return`, so it is a no-op.) -/
def ACIA.hw_reset (st : AciaState) : Except SimErr AciaState := do
  let st1 := { st with status_reg := 16, control_reg := 0, command_reg := 0 }
  let st2 ← ACIA.set_reg_call st1 1 st1.status_reg
  let st3 ← ACIA.set_reg_call st2 2 st2.command_reg
  ACIA.set_reg_call st3 3 st3.control_reg

/-- `ACIA._prog_reset` (acia.py lines 158-165): status `0b00010000`, command
`0`, control unchanged, then two unconditional `_set_reg_cb` calls. -/
def ACIA.prog_reset (st : AciaState) : Except SimErr AciaState := do
  let st1 := { st with status_reg := 16, command_reg := 0 }
  let st2 ← ACIA.set_reg_call st1 1 st1.status_reg
  ACIA.set_reg_call st2 2 st2.command_reg

/-- `ACIA.__init__` (acia.py lines 33-51) with the default arguments the
simulator uses (`serial_port=None`): registers and input buffer zeroed, the
callback recorded, then `hw_reset()` is invoked from inside the constructor. -/
def ACIA.init (cb : Bool) : Except SimErr AciaState :=
  ACIA.hw_reset
    { serial_attached := false, serial_in := [], serial_out := [], recv_data := 0,
      status_reg := 0, command_reg := 0, control_reg := 0, set_reg_cb := cb,
      in_buffer := [], cb_log := [] }

/-- `ACIA.poll` (acia.py lines 61-78): early-out when no serial port is
attached; otherwise drain every byte the port has available into `_in_buffer`;
then, if the buffer is non-empty and RDRF (status bit 3, mask 8) is clear,
dequeue one byte into `_recv_data`, set RDRF, mirror registers 0 and 1 and run
`_trigger_irq`. -/
def ACIA.poll (st : AciaState) : Except SimErr AciaState :=
  if st.serial_attached = false then .ok st
  else
    let st1 := { st with in_buffer := st.in_buffer ++ st.serial_in, serial_in := [] }
    match st1.in_buffer with
    | [] => .ok st1
    | b :: rest =>
      if st1.status_reg &&& 8 = 0 then do
        let st2 := { st1 with recv_data := b, in_buffer := rest, status_reg := st1.status_reg ||| 8 }
        let st3 ← ACIA.set_reg_call st2 0 st2.recv_data
        let st4 ← ACIA.set_reg_call st3 1 st3.status_reg
        ACIA.trigger_irq st4
      else .ok st1

/-- `ACIA._tx` (acia.py lines 167-189): if TDRE (status bit 4, mask 16) is
clear the byte is dropped (a warning is logged, nothing else changes); else
clear TDRE (`status &= ~16`, i.e. `andNot`), `putChar(value)` on the serial
port when one is attached, set TDRE again, mirror the status register, and
when bits 3:2 of the *command* register equal `01` run `_trigger_irq`. -/
def ACIA.tx (st : AciaState) (value : ℕ) : Except SimErr AciaState :=
  if st.status_reg &&& 16 = 0 then .ok st
  else do
    let st1 := { st with status_reg := andNot st.status_reg 16 }
    let st2 := if st1.serial_attached then
        { st1 with serial_out := st1.serial_out ++ [value] } else st1
    let st3 := { st2 with status_reg := st2.status_reg ||| 16 }
    let st4 ← ACIA.set_reg_call st3 1 st3.status_reg
    if (st4.command_reg >>> 2) &&& 3 = 1 then ACIA.trigger_irq st4 else .ok st4

/-- `ACIA.write_reg` (acia.py lines 104-126): register 0 transmits, register 1
performs a programmed reset, registers 2 and 3 store the value and mirror it
(`_update_serial_port` is a no-op), anything else raises `IndexError`. -/
def ACIA.write_reg (st : AciaState) (reg_idx value : ℕ) : Except SimErr AciaState :=
  if reg_idx = 0 then ACIA.tx st value
  else if reg_idx = 1 then ACIA.prog_reset st
  else if reg_idx = 2 then
    let st1 := { st with command_reg := value }
    ACIA.set_reg_call st1 2 st1.command_reg
  else if reg_idx = 3 then
    let st1 := { st with control_reg := value }
    ACIA.set_reg_call st1 3 st1.control_reg
  else .error (.indexError reg_idx)

/-- Extract the success state of an ACIA operation, with a fallback default
(verification scaffolding, used only to state concrete, decidable facts). -/
def okOr (r : Except SimErr AciaState) (d : AciaState) : AciaState :=
  match r with
  | .ok s => s
  | .error _ => d

/-- `BuriSim.irq` (sim.py lines 95-101): the bus-level `~IRQ` signal, the AND
of every device's individual `~IRQ` line (`True` = line high = not
asserted). -/
def BuriSim.irqAll (lines : List Bool) : Bool := lines.all (fun l => l)

/-- One call of the setter closure that `BuriSim._new_irq_line` (sim.py lines
76-85) hands to a device: record the device's new `~IRQ` level, and call
`self.mpu.irq()` exactly when the combined signal was high before and is low
now. Returns (new line states, whether `mpu.irq()` was called). -/
def BuriSim.setIrqLine (lines : List Bool) (idx : ℕ) (flag : Bool) : List Bool × Bool :=
  let prev := BuriSim.irqAll lines
  let lines1 := lines.set idx flag
  (lines1, prev && !(BuriSim.irqAll lines1))

/-- Run a sequence of `(device index, ~IRQ level)` setter calls, collecting for
each call whether it triggered `mpu.irq()`. -/
def BuriSim.runIrqEvents (lines : List Bool) : List (ℕ × Bool) → List Bool × List Bool
  | [] => (lines, [])
  | (idx, flag) :: rest =>
    let r := BuriSim.setIrqLine lines idx flag
    let t := BuriSim.runIrqEvents r.1 rest
    (t.1, r.2 :: t.2)

/-- One entry of an interval tree of handler registrations
(`intervaltree.IntervalTree.addi(begin, end, data)` as used by lib6502.py):
the half-open interval `[lo, hi)` and the registered callable `h`. -/
structure HandlerReg (α : Type) : Type where
  lo : ℕ
  hi : ℕ
  h : α
  deriving DecidableEq, Repr

/-- `M6502.register_write_handler` (lib6502.py lines 97-110): adds the interval
`[offset, offset+length)` with the callable to the write tree. Re-registration
does not overwrite: the tree accumulates every registration. -/
def M6502.register_write_handler (t : List (HandlerReg α)) (offset length : ℕ) (cb : α) :
    List (HandlerReg α) :=
  t ++ [⟨offset, offset + length, cb⟩]

/-- `self._write_cbs[addr]`: the set of registered intervals containing `addr`
(embedded in registration order; `intervaltree` guarantees no order). -/
def M6502.cbsAt (t : List (HandlerReg α)) (addr : ℕ) : List (HandlerReg α) :=
  t.filter (fun r => decide (r.lo ≤ addr) && decide (addr < r.hi))

/-- `M6502._write` (lib6502.py lines 183-185): `for i in self._write_cbs[addr]:
i.data(addr - i.begin, data)` — the list of handler invocations
`(handler, relative address, data)` a write to `addr` performs. -/
def M6502.writeCalls (t : List (HandlerReg α)) (addr data : ℕ) : List (α × ℕ × ℕ) :=
  (M6502.cbsAt t addr).map (fun r => (r.h, addr - r.lo, data))

/-- The two write handlers registered in the spec's §8 overwrite scenario:
first `[0x1000, 0x2000)` (handler 1), then `[0x1800, 0x1900)` (handler 2). -/
def demoTree : List (HandlerReg ℕ) :=
  M6502.register_write_handler (M6502.register_write_handler [] 0x1000 0x1000 1) 0x1800 0x100 2

/-- Opaque processor-core state. The instruction engine (vendored lib6502 C
library, not a Python source file) is consumed as an opaque unit. -/
structure MpuCore : Type where
  raw : ℕ
  deriving DecidableEq, Repr

/-- `M6502.run` (lib6502.py lines 121-131): `return lib.M6502_run(self._mpu,
ticks)`. Modelled from the spec: the engine itself is the external opaque unit
`engine`; but the *return value* is fixed by the FFI declaration in
_lib6502_build.py (`void M6502_run(M6502 *mpu, uint32_t n_ticks)`): a
`void` C function returns `None` in Python, embedded as the `Option ℕ`
component, always `none` — never the tick count the docstring promises. -/
def M6502.run (engine : MpuCore → ℕ → MpuCore) (mpu : MpuCore) (ticks : ℕ) :
    MpuCore × Option ℕ :=
  (engine mpu ticks, none)

/-- The whole-machine state `BuriSim` owns: the 64K memory image, the one ACIA
device and the opaque processor core. -/
structure BuriState : Type where
  mem : ℕ → ℕ
  acia1 : AciaState
  mpu : MpuCore

/-- Tags for the write handlers `BuriSim.__init__` (sim.py lines 43-74)
registers: `raise_rom_exception` over the ROM range and `acia1.write_reg` over
the ACIA register window. -/
inductive BuriWriteTag : Type where
  | rom
  | acia1
  deriving DecidableEq, Repr

/-- The write-handler tree after `BuriSim.__init__`: ROM protection first
(`ROM_RANGE[0] = 0x10000 - 0x2000 = 0xE000`, length `ROM_SIZE = 0x2000`), then
the ACIA window (`ACIA1_RANGE[0] = 0xDFFC`, length 4). -/
def BuriSim.writeCbs : List (HandlerReg BuriWriteTag) :=
  M6502.register_write_handler
    (M6502.register_write_handler [] 0xE000 0x2000 .rom) 0xDFFC 4 .acia1

/-- Run one registered write handler on the machine state.
`raise_rom_exception(addr, value)` (sim.py lines 51-52) receives the
range-relative address and raises `ReadOnlyMemoryError(addr + ROM_RANGE[0],
value)`; the ACIA handler is `acia1.write_reg`. -/
def BuriSim.applyWrite (st : BuriState) (tag : BuriWriteTag) (rel value : ℕ) :
    Except SimErr BuriState :=
  match tag with
  | .rom => .error (.readOnly (rel + 0xE000) value)
  | .acia1 => (ACIA.write_reg st.acia1 rel value).map (fun a => { st with acia1 := a })

/-- A write dispatched through `M6502._write` on the machine's registered
write tree: every covering handler is invoked in turn with the address
relative to its interval start; the first exception aborts the dispatch. -/
def BuriSim.writeDispatch (st : BuriState) (addr value : ℕ) : Except SimErr BuriState :=
  (M6502.cbsAt BuriSim.writeCbs addr).foldlM
    (fun s r => BuriSim.applyWrite s r.h (addr - r.lo) value) st

/-- `BuriSim.step` (sim.py lines 189-193): take the MPU lock and run the
engine; nothing else — no device poll, no interrupt delivery. The returned
second component is the Python return value (`None`, see `M6502.run`). -/
def BuriSim.step (engine : MpuCore → ℕ → MpuCore) (st : BuriState) (ticks : ℕ) :
    BuriState × Option ℕ :=
  let r := M6502.run engine st.mpu ticks
  ({ st with mpu := r.1 }, r.2)

/-- `BuriSim.load_ram_bytes` (sim.py lines 139-147): `for off, val in
enumerate(ram_bytes): self.mpu.memory[addr + off] = val` — successive
unconditional writes, no bounds check anywhere. -/
def BuriSim.load_ram_bytes (mem : ℕ → ℕ) : List ℕ → ℕ → (ℕ → ℕ)
  | [], _ => mem
  | v :: rest, addr => BuriSim.load_ram_bytes (Function.update mem addr v) rest (addr + 1)

/-- The loop of `BuriSim.load_rom_bytes` (sim.py lines 124-137) after `n`
iterations: `for addr, val in zip(range(0xE000, 0x10000), cycle(rom_bytes))`,
where position `o` of `cycle(rom_bytes)` is `rom_bytes[o % len(rom_bytes)]`. -/
def BuriSim.loadRomLoop (mem : ℕ → ℕ) (bs : List ℕ) : ℕ → (ℕ → ℕ)
  | 0 => mem
  | n + 1 =>
    Function.update (BuriSim.loadRomLoop mem bs n) (0xE000 + n) (bs.getD (n % bs.length) 0)

/-- `BuriSim.load_rom_bytes`: `cycle(())` yields nothing, so with an empty
image `zip` is empty and no byte is written; otherwise all `0x2000` ROM
positions are written from the cycled image. -/
def BuriSim.load_rom_bytes (mem : ℕ → ℕ) (bs : List ℕ) : ℕ → ℕ :=
  if bs.isEmpty then mem else BuriSim.loadRomLoop mem bs 0x2000

/-- The attribute names class `M6502` (lib6502.py) gives its instances: the
fields assigned in `__init__` plus the methods and properties of the class
body. -/
def M6502.attrNames : List String :=
  ["_mpu", "_read_cbs", "_write_cbs", "_call_cbs",
   "register_read_handler", "register_call_handler", "register_write_handler",
   "memory", "run", "reset", "nmi", "irq",
   "rst_vector", "irq_vector", "nmi_vector", "_read", "_write", "_call"]

/-- The attribute `BuriSim.stop` (sim.py line 184) looks up on `self.mpu`
after signalling `_want_stop` and before `self._mpu_thread.join()`. -/
def BuriSim.stopEngineAttr : String := "exit"

/-- An ACIA state whose `_set_reg_cb` is `None`, as the simulator builds it
(`self.acia1 = ACIA()`, sim.py line 64): TDRE set, everything else quiet. -/
def aciaNoCb : AciaState :=
  { serial_attached := false, serial_in := [], serial_out := [], recv_data := 0,
    status_reg := 16, command_reg := 0, control_reg := 0, set_reg_cb := false,
    in_buffer := [], cb_log := [] }

/-- `aciaNoCb` with a serial port attached that has one byte available, so a
`poll` must transfer a byte (and hence must call the `None` callback). -/
def aciaPollNoCb : AciaState :=
  { aciaNoCb with serial_attached := true, serial_in := [5] }

/-- A healthy transmit state: callback and port attached, TDRE set, command
`0b100` (transmit-interrupt-control field = `01`), control `0`. -/
def txDemo : AciaState :=
  { serial_attached := true, serial_in := [], serial_out := [], recv_data := 0,
    status_reg := 16, command_reg := 4, control_reg := 0, set_reg_cb := true,
    in_buffer := [], cb_log := [] }

/-- A transmit state whose TDRE bit is clear: the drop branch of `_tx`. -/
def txDropDemo : AciaState :=
  { txDemo with status_reg := 0 }

/-- Poll demo: RDRF (and TDRE) already set, yet a byte is available on the
attached serial port. -/
def pollDemoA : AciaState :=
  { serial_attached := true, serial_in := [0x41], serial_out := [], recv_data := 0,
    status_reg := 24, command_reg := 0, control_reg := 0, set_reg_cb := true,
    in_buffer := [], cb_log := [] }

/-- Poll demo: RDRF clear, a byte queued, the command register entirely zero
(so every one of its bits, any candidate receiver-interrupt-enable bit
included, is clear) but control bits 3:2 = `01`. -/
def pollDemoB : AciaState :=
  { serial_attached := true, serial_in := [], serial_out := [], recv_data := 0,
    status_reg := 16, command_reg := 0, control_reg := 4, set_reg_cb := true,
    in_buffer := [0x41], cb_log := [] }

/-- A concrete machine state (memory all zero). -/
def buriDemo : BuriState :=
  { mem := fun _ => 0, acia1 := pollDemoB, mpu := ⟨0⟩ }

/-- The identity engine: a concrete instance of the opaque processor core
used to evaluate `BuriSim.step` on closed inputs. -/
def idEngine : MpuCore → ℕ → MpuCore := fun m _ => m

/-! ### Helper lemmas (shared) -/

theorem and_two_pow_cases (x k : ℕ) : x &&& 2 ^ k = if x.testBit k then 2 ^ k else 0 := by
  rw [Nat.and_two_pow]
  cases x.testBit k <;> simp

theorem and16_ne_iff (x : ℕ) : x &&& 16 ≠ 0 ↔ x.testBit 4 = true := by
  have h : x &&& 16 = if x.testBit 4 then 16 else 0 := by
    have h2 := and_two_pow_cases x 4
    norm_num at h2
    exact h2
  rw [h]
  cases hx : x.testBit 4 <;> simp

theorem and8_ne_iff (x : ℕ) : x &&& 8 ≠ 0 ↔ x.testBit 3 = true := by
  have h : x &&& 8 = if x.testBit 3 then 8 else 0 := by
    have h2 := and_two_pow_cases x 3
    norm_num at h2
    exact h2
  rw [h]
  cases hx : x.testBit 3 <;> simp

theorem and128_ne_iff (x : ℕ) : x &&& 128 ≠ 0 ↔ x.testBit 7 = true := by
  have h : x &&& 128 = if x.testBit 7 then 128 else 0 := by
    have h2 := and_two_pow_cases x 7
    norm_num at h2
    exact h2
  rw [h]
  cases hx : x.testBit 7 <;> simp

theorem testBit4_or16 (y : ℕ) : (y ||| 16).testBit 4 = true := by
  have h : Nat.testBit 16 4 = true := by decide
  rw [Nat.testBit_lor, h, Bool.or_true]

theorem testBit7_or16 (y : ℕ) : (y ||| 16).testBit 7 = y.testBit 7 := by
  have h : Nat.testBit 16 7 = false := by decide
  rw [Nat.testBit_lor, h, Bool.or_false]

theorem testBit3_or8 (y : ℕ) : (y ||| 8).testBit 3 = true := by
  have h : Nat.testBit 8 3 = true := by decide
  rw [Nat.testBit_lor, h, Bool.or_true]

theorem testBit7_or8 (y : ℕ) : (y ||| 8).testBit 7 = y.testBit 7 := by
  have h : Nat.testBit 8 7 = false := by decide
  rw [Nat.testBit_lor, h, Bool.or_false]

theorem testBit4_or144 (y : ℕ) : (y ||| 144).testBit 4 = true := by
  have h : Nat.testBit 144 4 = true := by decide
  rw [Nat.testBit_lor, h, Bool.or_true]

theorem testBit7_or144 (y : ℕ) : (y ||| 144).testBit 7 = true := by
  have h : Nat.testBit 144 7 = true := by decide
  rw [Nat.testBit_lor, h, Bool.or_true]

theorem testBit3_or144 (y : ℕ) : (y ||| 144).testBit 3 = y.testBit 3 := by
  have h : Nat.testBit 144 3 = false := by decide
  rw [Nat.testBit_lor, h, Bool.or_false]

theorem testBit7_andNot16 (x : ℕ) : (andNot x 16).testBit 7 = x.testBit 7 := by
  rw [andNot]
  have h16 := and_two_pow_cases x 4
  norm_num at h16
  cases hx : x.testBit 4 with
  | false =>
    rw [hx] at h16
    simp at h16
    simp [h16]
  | true =>
    rw [hx] at h16
    simp at h16
    rw [h16]
    have hb4 : x / 16 % 2 = 1 := by
      have := Nat.testBit_to_div_mod (x := x) (i := 4)
      rw [hx] at this
      norm_num at this
      omega
    have e1 := Nat.testBit_to_div_mod (x := x - 16) (i := 7)
    have e2 := Nat.testBit_to_div_mod (x := x) (i := 7)
    rw [e1, e2]
    norm_num
    constructor <;> intro h <;> omega

theorem irqAll_set_false (lines : List Bool) (idx : ℕ) (h : idx < lines.length) :
    BuriSim.irqAll (lines.set idx false) = false := by
  induction lines generalizing idx with
  | nil => simp at h
  | cons a t ih =>
    cases idx with
    | zero => simp [BuriSim.irqAll]
    | succ n =>
      have hn : n < t.length := by simpa using h
      have := ih n hn
      simp [BuriSim.irqAll] at this ⊢
      intro _
      exact this

theorem irqAll_set_true (lines : List Bool) (idx : ℕ) (h : BuriSim.irqAll lines = true) :
    BuriSim.irqAll (lines.set idx true) = true := by
  induction lines generalizing idx with
  | nil => simp [BuriSim.irqAll]
  | cons a t ih =>
    cases idx with
    | zero =>
      simp [BuriSim.irqAll] at h ⊢
      exact h.2
    | succ n =>
      simp [BuriSim.irqAll] at h ⊢
      refine ⟨h.1, ?_⟩
      have h2 := ih n (by simpa [BuriSim.irqAll] using h.2)
      simpa [BuriSim.irqAll] using h2

/-! ### The claims -/

/-- C10: constructing an `ACIA` without a `set_reg_cb` callback — the default,
and exactly what `BuriSim.__init__` does with `self.acia1 = ACIA()` — raises,
because `__init__` invokes `hw_reset`, which calls `self._set_reg_cb(...)`
unconditionally; a callable `set_reg_cb` is likewise a precondition of
`hw_reset`, of the programmed reset, of `poll` on a state with a byte to
transfer, and of every `write_reg` to registers 0 (with TDRE set), 1, 2 and 3. -/
theorem acia_requires_callable_set_reg_cb :
    ACIA.init false = .error SimErr.notCallable ∧
    ACIA.hw_reset aciaNoCb = .error SimErr.notCallable ∧
    ACIA.prog_reset aciaNoCb = .error SimErr.notCallable ∧
    ACIA.poll aciaPollNoCb = .error SimErr.notCallable ∧
    ACIA.write_reg aciaNoCb 0 65 = .error SimErr.notCallable ∧
    ACIA.write_reg aciaNoCb 1 0 = .error SimErr.notCallable ∧
    ACIA.write_reg aciaNoCb 2 77 = .error SimErr.notCallable ∧
    ACIA.write_reg aciaNoCb 3 77 = .error SimErr.notCallable :=
  ⟨rfl, rfl, rfl, rfl, rfl, rfl, rfl, rfl⟩

/-- C9: `BuriSim.stop` calls `self.mpu.exit()` between signalling
`_want_stop` and joining the thread, but class `M6502` defines no attribute
named `exit` — the lookup raises `AttributeError`, so `stop()` can never
reach `self._mpu_thread.join()` while the background thread is alive. -/
theorem stop_calls_missing_engine_method :
    BuriSim.stopEngineAttr = "exit" ∧
    M6502.attrNames.contains BuriSim.stopEngineAttr = false := by
  exact ⟨rfl, by decide⟩

/-- C4: the interrupt aggregation is edge-triggered: from the all-quiescent
state (every `~IRQ` line high) asserting any one line fires `mpu.irq()`
exactly once for that call; any setter call made while some line is already
asserted fires nothing, and deasserting from the quiescent state fires
nothing; the two-device scenario (assert A, assert B, clear A, clear B,
re-assert A) fires exactly at the first and at the last call. -/
theorem irq_edge_detection :
    (∀ lines idx, idx < lines.length → BuriSim.irqAll lines = true →
      (BuriSim.setIrqLine lines idx false).2 = true) ∧
    (∀ lines idx flag, BuriSim.irqAll lines = false →
      (BuriSim.setIrqLine lines idx flag).2 = false) ∧
    (∀ lines idx, BuriSim.irqAll lines = true →
      (BuriSim.setIrqLine lines idx true).2 = false) ∧
    BuriSim.runIrqEvents [true, true]
      [(0, false), (1, false), (0, true), (1, true), (0, false)] =
      ([false, true], [true, false, false, false, true]) := by
  refine ⟨?_, ?_, ?_, by decide⟩
  · intro lines idx h hall
    simp [BuriSim.setIrqLine, hall, irqAll_set_false lines idx h]
  · intro lines idx flag hall
    simp [BuriSim.setIrqLine, hall]
  · intro lines idx hall
    simp [BuriSim.setIrqLine, hall, irqAll_set_true lines idx hall]

/-- C4 witness: the first part of `irq_edge_detection` applied to the concrete
two-line quiescent state. -/
theorem irq_edge_detection_witness :
    (BuriSim.setIrqLine [true, true] 0 false).2 = true :=
  irq_edge_detection.1 [true, true] 0 (by decide) (by decide)

/-- C1 (amended): a write dispatched through `M6502._write` invokes *every*
handler whose registered interval covers the address (the interval tree
accumulates registrations; it does not overwrite per address, and iteration
order is not guaranteed), each with the range-relative address. In the spec's
own scenario a write to 0x1200 invokes only handler 1 (the only covering
registration), but a write to 0x1850 invokes both handlers, not just the one
registered last. -/
theorem write_dispatch_invokes_every_covering_handler (t : List (HandlerReg ℕ))
    (r : HandlerReg ℕ) (addr v : ℕ) (hr : r ∈ t) (hlo : r.lo ≤ addr) (hhi : addr < r.hi) :
    (r.h, addr - r.lo, v) ∈ M6502.writeCalls t addr v ∧
    M6502.writeCalls demoTree 0x1200 v = [(1, 0x200, v)] ∧
    (M6502.writeCalls demoTree 0x1850 v).length = 2 ∧
    (1, 0x850, v) ∈ M6502.writeCalls demoTree 0x1850 v ∧
    (2, 0x50, v) ∈ M6502.writeCalls demoTree 0x1850 v := by
  refine ⟨?_, ?_, ?_, ?_, ?_⟩
  · refine List.mem_map.mpr ⟨r, ?_, rfl⟩
    refine List.mem_filter.mpr ⟨hr, ?_⟩
    simp [hlo, hhi]
  · simp [M6502.writeCalls, M6502.cbsAt, demoTree, M6502.register_write_handler]
  · simp [M6502.writeCalls, M6502.cbsAt, demoTree, M6502.register_write_handler]
  · simp [M6502.writeCalls, M6502.cbsAt, demoTree, M6502.register_write_handler]
  · simp [M6502.writeCalls, M6502.cbsAt, demoTree, M6502.register_write_handler]

/-- C1 witness: `write_dispatch_invokes_every_covering_handler` at the
concrete overlapping registration of the spec scenario. -/
theorem write_dispatch_invokes_every_covering_handler_witness :
    ((2 : ℕ), 0x50, 7) ∈ M6502.writeCalls demoTree 0x1850 7 :=
  (write_dispatch_invokes_every_covering_handler demoTree
    ⟨0x1800, 0x1800 + 0x100, 2⟩ 0x1850 7 (by decide) (by decide) (by decide)).1

/-- C1 counterexample: with a write handler registered for [0x1000, 0x2000)
and a second registered later for [0x1800, 0x1900), a write dispatched to
0x1850 invokes two handlers — not exactly one — so "exactly one handler, the
one registered last" is false. -/
theorem write_dispatch_overlap_invokes_both :
    (M6502.writeCalls demoTree 0x1850 7).length = 2 ∧
    ¬ (M6502.writeCalls demoTree 0x1850 7).length = 1 ∧
    (1, 0x850, 7) ∈ M6502.writeCalls demoTree 0x1850 7 ∧
    (2, 0x50, 7) ∈ M6502.writeCalls demoTree 0x1850 7 := by decide

/-- C2: a write dispatched into the ROM range [0xE000, 0x10000) reaches only
the ROM-protection handler, which raises `ReadOnlyMemoryError` carrying the
absolute address and the attempted value; the dispatch produces no new
machine state at all (the write is rejected whole, the memory image is
untouched). -/
theorem rom_write_rejected (st : BuriState) (addr value : ℕ)
    (h1 : 0xE000 ≤ addr) (h2 : addr < 0x10000) :
    BuriSim.writeDispatch st addr value = .error (.readOnly addr value) := by
  have hA : addr < 0xE000 + 0x2000 := by omega
  have hB : ¬ addr < 0xDFFC + 4 := by omega
  have hlist : M6502.cbsAt BuriSim.writeCbs addr =
      [⟨0xE000, 0xE000 + 0x2000, BuriWriteTag.rom⟩] := by
    simp [M6502.cbsAt, BuriSim.writeCbs, M6502.register_write_handler,
      List.filter_cons, h1, hA, hB]
  rw [BuriSim.writeDispatch, hlist]
  simp [List.foldlM, BuriSim.applyWrite, Nat.sub_add_cancel h1]

/-- C2 witness: `rom_write_rejected` at a concrete machine state, address
0xE123 and value 0x42. -/
theorem rom_write_rejected_witness :
    BuriSim.writeDispatch buriDemo 0xE123 0x42 = .error (.readOnly 0xE123 0x42) :=
  rom_write_rejected buriDemo 0xE123 0x42 (by decide) (by decide)

/-- C3 (amended): `BuriSim.step(ticks)` takes the MPU lock and invokes the
engine's run with the requested tick count — nothing else: no device is
polled, no interrupt is delivered (memory and ACIA state are untouched), and
the Python return value is `None` rather than the consumed tick count,
because the FFI declares `M6502_run` as returning `void` (contradicting
`M6502.run`'s own docstring, and `BuriSim.start`'s `n_ticks += self.step(...)`). -/
theorem step_runs_engine_only (engine : MpuCore → ℕ → MpuCore) (st : BuriState) (ticks : ℕ) :
    (BuriSim.step engine st ticks).1.acia1 = st.acia1 ∧
    (BuriSim.step engine st ticks).1.mem = st.mem ∧
    (BuriSim.step engine st ticks).1.mpu = engine st.mpu ticks ∧
    (BuriSim.step engine st ticks).2 = none :=
  ⟨rfl, rfl, rfl, rfl⟩

/-- C3 counterexample: at a machine state whose ACIA has a byte queued and
RDRF clear, a device poll would change the ACIA (status 16 → 152, queue
drained), yet `step` leaves the ACIA exactly as it was, and its return value
is `none`, not some count `≥` the requested 100 ticks — so "step first polls
every device once … and returns the actual number of ticks consumed" is false
on this input. -/
theorem step_does_not_poll_or_return_ticks :
    (BuriSim.step idEngine buriDemo 100).1.acia1.status_reg = 16 ∧
    (okOr (ACIA.poll buriDemo.acia1) buriDemo.acia1).status_reg = 152 ∧
    (BuriSim.step idEngine buriDemo 100).1.acia1.in_buffer = [0x41] ∧
    (okOr (ACIA.poll buriDemo.acia1) buriDemo.acia1).in_buffer = [] ∧
    (BuriSim.step idEngine buriDemo 100).2 = none := by decide

theorem loadRomLoop_outside (mem : ℕ → ℕ) (bs : List ℕ) (n a : ℕ)
    (h : a < 0xE000 ∨ 0xE000 + n ≤ a) : BuriSim.loadRomLoop mem bs n a = mem a := by
  induction n with
  | zero => rfl
  | succ k ih =>
    have hne : a ≠ 0xE000 + k := by omega
    simp only [BuriSim.loadRomLoop]
    rw [Function.update_noteq hne]
    exact ih (by omega)

theorem loadRomLoop_inside (mem : ℕ → ℕ) (bs : List ℕ) (n o : ℕ) (h : o < n) :
    BuriSim.loadRomLoop mem bs n (0xE000 + o) = bs.getD (o % bs.length) 0 := by
  induction n with
  | zero => omega
  | succ k ih =>
    by_cases ho : o = k
    · subst ho
      simp only [BuriSim.loadRomLoop]
      rw [Function.update_same]
    · simp only [BuriSim.loadRomLoop]
      rw [Function.update_noteq (by omega : (0xE000 + o : ℕ) ≠ 0xE000 + k)]
      exact ih (by omega)

/-- C7 (amended): for every NON-empty byte sequence, `load_rom_bytes` fills
the ROM range [0xE000, 0x10000) exactly, tiling the source cyclically (so a
source of `ROM_SIZE = 0x2000` bytes or more contributes only its first
0x2000 bytes), and modifies no byte outside the ROM range. An empty source
writes nothing (`cycle(())` yields nothing), so the claim's universal "for
every byte sequence … fills the range" fails only at the empty sequence. -/
theorem load_rom_tiles (bs : List ℕ) (mem : ℕ → ℕ) (a : ℕ) (hbs : bs ≠ []) :
    ((a < 0xE000 ∨ 0x10000 ≤ a) → BuriSim.load_rom_bytes mem bs a = mem a) ∧
    (0xE000 ≤ a → a < 0x10000 →
      BuriSim.load_rom_bytes mem bs a = bs.getD ((a - 0xE000) % bs.length) 0) := by
  have hne : bs.isEmpty = false := by
    cases bs with
    | nil => exact absurd rfl hbs
    | cons b t => rfl
  constructor
  · intro h
    simp only [BuriSim.load_rom_bytes, hne, Bool.false_eq_true, if_false]
    exact loadRomLoop_outside mem bs 0x2000 a (by omega)
  · intro h1 h2
    simp only [BuriSim.load_rom_bytes, hne, Bool.false_eq_true, if_false]
    have h3 := loadRomLoop_inside mem bs 0x2000 (a - 0xE000) (by omega)
    rw [show (0xE000 + (a - 0xE000) : ℕ) = a from by omega] at h3
    exact h3

/-- C7 witness: `load_rom_tiles` on the spec's own example, the 1-byte image
[0x42]: the ROM byte at 0xE005 is 0x42. -/
theorem load_rom_tiles_witness :
    (([0x42] : List ℕ) ≠ []) ∧
    BuriSim.load_rom_bytes (fun _ => 0) [0x42] 0xE005 = 0x42 :=
  ⟨by decide,
    ((load_rom_tiles [0x42] (fun _ => 0) 0xE005 (by decide)).2 (by decide)
      (by decide)).trans (by decide)⟩

/-- C7 counterexample: loading the EMPTY byte sequence writes nothing at all,
so the ROM range is not filled — the byte at 0xE000 keeps whatever value the
memory had before the load (7 for one prior memory, 0 for another), refuting
"for every byte sequence, loadRom fills the ROM range exactly" at `[]`. -/
theorem load_rom_empty_writes_nothing :
    BuriSim.load_rom_bytes (fun _ => 7) [] 0xE000 = 7 ∧
    BuriSim.load_rom_bytes (fun _ => 0) [] 0xE000 = 0 ∧
    (7 : ℕ) ≠ 0 :=
  ⟨rfl, rfl, by decide⟩

theorem load_ram_outside (bs : List ℕ) (mem : ℕ → ℕ) (addr a : ℕ)
    (h : a < addr ∨ addr + bs.length ≤ a) :
    BuriSim.load_ram_bytes mem bs addr a = mem a := by
  induction bs generalizing mem addr with
  | nil => rfl
  | cons v rest ih =>
    simp only [BuriSim.load_ram_bytes]
    simp only [List.length_cons] at h
    rw [ih (Function.update mem addr v) (addr + 1) (by omega)]
    rw [Function.update_noteq (by omega : a ≠ addr)]

theorem load_ram_writes (bs : List ℕ) (mem : ℕ → ℕ) (addr i : ℕ) (h : i < bs.length) :
    BuriSim.load_ram_bytes mem bs addr (addr + i) = bs.getD i 0 := by
  induction bs generalizing mem addr i with
  | nil => simp at h
  | cons v rest ih =>
    cases i with
    | zero =>
      simp only [BuriSim.load_ram_bytes, Nat.add_zero, List.getD_cons_zero]
      rw [load_ram_outside rest (Function.update mem addr v) (addr + 1) addr (by omega)]
      rw [Function.update_same]
    | succ j =>
      simp only [BuriSim.load_ram_bytes, List.getD_cons_succ]
      rw [show addr + (j + 1) = (addr + 1) + j from by omega]
      exact ih (Function.update mem addr v) (addr + 1) j (by simpa using h)

/-- C8 (amended): `load_ram_bytes` copies the source to consecutive ascending
addresses starting at `addr` (no wraparound) and leaves every other address
unchanged — unconditionally: there is no bounds check, so a copy that would
exceed the 64KB image does not fail before writing; every byte, the in-image
prefix included, is written (offsets past 0xFFFF go through the unchecked
cffi `uint8_t *` pointer instead of raising). -/
theorem load_ram_unchecked_copy (bs : List ℕ) (mem : ℕ → ℕ) (addr i : ℕ)
    (h : i < bs.length) :
    BuriSim.load_ram_bytes mem bs addr (addr + i) = bs.getD i 0 ∧
    (∀ a, a < addr ∨ addr + bs.length ≤ a → BuriSim.load_ram_bytes mem bs addr a = mem a) :=
  ⟨load_ram_writes bs mem addr i h, fun a ha => load_ram_outside bs mem addr a ha⟩

/-- C8 witness: `load_ram_unchecked_copy` on the overflowing load of [1, 2]
at 0xFFFF: offset 1 (address 0x10000, outside the image) is written with 2. -/
theorem load_ram_unchecked_copy_witness :
    (1 : ℕ) < ([1, 2] : List ℕ).length ∧
    BuriSim.load_ram_bytes (fun _ => 0) [1, 2] 0xFFFF (0xFFFF + 1) = 2 :=
  ⟨by decide,
    ((load_ram_unchecked_copy [1, 2] (fun _ => 0) 0xFFFF 1 (by decide)).1).trans (by decide)⟩

/-- C8 counterexample: loading [1, 2] at 0xFFFF would exceed the 64KB image,
yet no out-of-range error is raised and the write is not rejected before any
byte lands: the in-image byte at 0xFFFF is written (1, over the prior 0), and
offset 0x10000 beyond the image is written too — the copy is not
all-or-nothing. -/
theorem load_ram_overflow_writes :
    0x10000 < 0xFFFF + ([1, 2] : List ℕ).length ∧
    (BuriSim.load_ram_bytes (fun _ => 0) [1, 2] 0xFFFF) 0xFFFF = 1 ∧
    (BuriSim.load_ram_bytes (fun _ => 0) [1, 2] 0xFFFF) 0x10000 = 2 := by decide

theorem and16_eq_iff (x : ℕ) : x &&& 16 = 0 ↔ x.testBit 4 = false := by
  have h : x &&& 16 = if x.testBit 4 then 16 else 0 := by
    have h2 := and_two_pow_cases x 4
    norm_num at h2
    exact h2
  rw [h]
  cases hx : x.testBit 4 <;> simp

theorem and8_eq_iff (x : ℕ) : x &&& 8 = 0 ↔ x.testBit 3 = false := by
  have h : x &&& 8 = if x.testBit 3 then 8 else 0 := by
    have h2 := and_two_pow_cases x 3
    norm_num at h2
    exact h2
  rw [h]
  cases hx : x.testBit 3 <;> simp

theorem and128_eq_iff (x : ℕ) : x &&& 128 = 0 ↔ x.testBit 7 = false := by
  have h : x &&& 128 = if x.testBit 7 then 128 else 0 := by
    have h2 := and_two_pow_cases x 7
    norm_num at h2
    exact h2
  rw [h]
  cases hx : x.testBit 7 <;> simp

/-- Closed form of a successful `_tx`: with a callable callback, an attached
port and TDRE set, the byte goes out, TDRE is cleared then restored, the
status mirror is called, and the 144-bits are or-ed in exactly when the
command tic field is `01` AND control bits 3:2 are `01`. -/
theorem tx_ok_eq (st : AciaState) (v : ℕ) (hcb : st.set_reg_cb = true)
    (hsp : st.serial_attached = true) (htdre : ¬ st.status_reg &&& 16 = 0) :
    ACIA.tx st v = .ok (
      if (st.command_reg >>> 2) &&& 3 = 1 ∧ st.control_reg &&& 12 = 4 then
        { st with
            status_reg := (andNot st.status_reg 16 ||| 16) ||| 144
            serial_out := st.serial_out ++ [v]
            cb_log := st.cb_log ++
              [(1, andNot st.status_reg 16 ||| 16),
               (1, (andNot st.status_reg 16 ||| 16) ||| 144)] }
      else
        { st with
            status_reg := andNot st.status_reg 16 ||| 16
            serial_out := st.serial_out ++ [v]
            cb_log := st.cb_log ++ [(1, andNot st.status_reg 16 ||| 16)] }) := by
  obtain ⟨sat, sin, sout, rcv, stat, cmd, ctl, cb, buf, log⟩ := st
  simp only at hcb hsp htdre
  subst hcb
  subst hsp
  by_cases htic : (cmd >>> 2) &&& 3 = 1
  · by_cases hctl : ctl &&& 12 = 4
    · simp [ACIA.tx, ACIA.set_reg_call, ACIA.trigger_irq, htdre, htic, hctl,
        Bind.bind, Except.bind]
    · simp [ACIA.tx, ACIA.set_reg_call, ACIA.trigger_irq, htdre, htic, hctl,
        Bind.bind, Except.bind]
  · simp [ACIA.tx, ACIA.set_reg_call, ACIA.trigger_irq, htdre, htic,
      Bind.bind, Except.bind]

/-- C5 (amended): `transmit` with TDRE clear drops the byte silently (state
unchanged, nothing forwarded); otherwise it clears TDRE, forwards the value
to the attached listener, and sets TDRE again *before returning* — so of two
back-to-back transmits both succeed and the listener receives both bytes (the
claimed drop of the second byte cannot happen); and when the command
register's transmit-interrupt-control field equals `01` it runs the
interrupt-trigger routine, which raises the IRQ status bit only if bits 3:2
of the *control* register also equal `01` — not "exactly when tic = 01". -/
theorem tx_spec (st : AciaState) (v w : ℕ) (hcb : st.set_reg_cb = true)
    (hsp : st.serial_attached = true) (htdre : ¬ st.status_reg &&& 16 = 0)
    (hirq : st.status_reg &&& 128 = 0) :
    (∀ s, s.status_reg &&& 16 = 0 → ACIA.tx s v = .ok s) ∧
    ACIA.tx st v = .ok (okOr (ACIA.tx st v) st) ∧
    (okOr (ACIA.tx st v) st).serial_out = st.serial_out ++ [v] ∧
    ¬ (okOr (ACIA.tx st v) st).status_reg &&& 16 = 0 ∧
    (¬ (okOr (ACIA.tx st v) st).status_reg &&& 128 = 0 ↔
      ((st.command_reg >>> 2) &&& 3 = 1 ∧ st.control_reg &&& 12 = 4)) ∧
    ACIA.tx (okOr (ACIA.tx st v) st) w =
      .ok (okOr (ACIA.tx (okOr (ACIA.tx st v) st) w) st) ∧
    (okOr (ACIA.tx (okOr (ACIA.tx st v) st) w) st).serial_out =
      st.serial_out ++ [v, w] := by
  have ht7 : st.status_reg.testBit 7 = false := (and128_eq_iff _).mp hirq
  refine ⟨fun s hs => by rw [ACIA.tx, if_pos hs], ?_⟩
  rw [tx_ok_eq st v hcb hsp htdre]
  by_cases hcc : (st.command_reg >>> 2) &&& 3 = 1 ∧ st.control_reg &&& 12 = 4
  · rw [if_pos hcc]
    have h16 : ¬ ((andNot st.status_reg 16 ||| 16) ||| 144) &&& 16 = 0 :=
      (and16_ne_iff _).mpr (testBit4_or144 _)
    have h128 : ¬ ((andNot st.status_reg 16 ||| 16) ||| 144) &&& 128 = 0 :=
      (and128_ne_iff _).mpr (testBit7_or144 _)
    simp only [okOr]
    rw [tx_ok_eq
      { st with
          status_reg := (andNot st.status_reg 16 ||| 16) ||| 144
          serial_out := st.serial_out ++ [v]
          cb_log := st.cb_log ++
            [(1, andNot st.status_reg 16 ||| 16),
             (1, (andNot st.status_reg 16 ||| 16) ||| 144)] }
      w hcb hsp h16]
    obtain ⟨htic, hctl⟩ := hcc
    refine ⟨trivial, trivial, h16, iff_of_true h128 ⟨htic, hctl⟩, ?_, ?_⟩
    · simp [okOr, htic, hctl]
    · simp [okOr, htic, hctl, List.append_assoc]
  · rw [if_neg hcc]
    have h16 : ¬ (andNot st.status_reg 16 ||| 16) &&& 16 = 0 :=
      (and16_ne_iff _).mpr (testBit4_or16 _)
    have h128 : (andNot st.status_reg 16 ||| 16) &&& 128 = 0 := by
      rw [and128_eq_iff, testBit7_or16, testBit7_andNot16]
      exact ht7
    simp only [okOr]
    rw [tx_ok_eq
      { st with
          status_reg := andNot st.status_reg 16 ||| 16
          serial_out := st.serial_out ++ [v]
          cb_log := st.cb_log ++ [(1, andNot st.status_reg 16 ||| 16)] }
      w hcb hsp h16]
    refine ⟨trivial, trivial, h16, iff_of_false (by simpa using h128) hcc, ?_, ?_⟩
    · simp [okOr, hcc]
    · simp [okOr, hcc, List.append_assoc]

/-- C5 witness: `tx_spec` at the concrete healthy state `txDemo`: two
back-to-back transmits of 0x41 then 0x42 leave both bytes with the listener. -/
theorem tx_spec_witness :
    (okOr (ACIA.tx (okOr (ACIA.tx txDemo 0x41) txDemo) 0x42) txDemo).serial_out =
      [0x41, 0x42] :=
  ((tx_spec txDemo 0x41 0x42 (by decide) (by decide) (by decide)
    (by decide)).2.2.2.2.2.2).trans (by decide)

/-- C5 counterexample: from `txDemo` (TDRE set, tic field = 01, control = 0),
two back-to-back `transmit` calls deliver BOTH bytes to the listener — the
second is not dropped — and the first transmit, despite tic = 01, leaves the
IRQ status bit clear (the trigger routine also requires control bits 3:2 =
01), refuting both the "second byte is dropped" and the "raises the interrupt
line exactly when tic = 01" parts of the claim. -/
theorem tx_claim_counterexample :
    (okOr ((ACIA.tx txDemo 0x41).bind (fun s => ACIA.tx s 0x42)) txDemo).serial_out =
      [0x41, 0x42] ∧
    ¬ (okOr ((ACIA.tx txDemo 0x41).bind (fun s => ACIA.tx s 0x42)) txDemo).serial_out =
      [0x41] ∧
    (txDemo.command_reg >>> 2) &&& 3 = 1 ∧
    (okOr (ACIA.tx txDemo 0x41) txDemo).status_reg &&& 128 = 0 := by decide

theorem poll_not_attached (st : AciaState) (hsp : st.serial_attached = false) :
    ACIA.poll st = .ok st := by
  rw [ACIA.poll, if_pos hsp]

/-- With a serial port attached but RDRF already set, `poll` still drains the
port's available bytes into the input buffer — it is not a no-op. -/
theorem poll_rdrf_set (st : AciaState) (hsp : st.serial_attached = true)
    (hrdrf : ¬ st.status_reg &&& 8 = 0) :
    ACIA.poll st =
      .ok { st with in_buffer := st.in_buffer ++ st.serial_in, serial_in := [] } := by
  obtain ⟨sat, sin, sout, rcv, stat, cmd, ctl, cb, buf, log⟩ := st
  simp only at hsp hrdrf
  subst hsp
  cases hq : buf ++ sin with
  | nil => simp [ACIA.poll, hq]
  | cons b rest => simp [ACIA.poll, hq, hrdrf]

/-- Closed form of a dequeuing `poll`: port attached, callable callback, RDRF
clear and a byte available — the head byte lands in the receive register,
RDRF is set, and the IRQ/TDRE bits (144) are or-ed in exactly when control
bits 3:2 equal `01`. -/
theorem poll_ok_eq (st : AciaState) (b : ℕ) (rest : List ℕ)
    (hsp : st.serial_attached = true) (hcb : st.set_reg_cb = true)
    (hrdrf : st.status_reg &&& 8 = 0) (hq : st.in_buffer ++ st.serial_in = b :: rest) :
    ACIA.poll st = .ok (
      if st.control_reg &&& 12 = 4 then
        { st with
            recv_data := b
            in_buffer := rest
            serial_in := []
            status_reg := (st.status_reg ||| 8) ||| 144
            cb_log := st.cb_log ++
              [(0, b), (1, st.status_reg ||| 8), (1, (st.status_reg ||| 8) ||| 144)] }
      else
        { st with
            recv_data := b
            in_buffer := rest
            serial_in := []
            status_reg := st.status_reg ||| 8
            cb_log := st.cb_log ++ [(0, b), (1, st.status_reg ||| 8)] }) := by
  obtain ⟨sat, sin, sout, rcv, stat, cmd, ctl, cb, buf, log⟩ := st
  simp only at hsp hcb hrdrf hq
  subst hsp
  subst hcb
  by_cases hctl : ctl &&& 12 = 4
  · simp [ACIA.poll, ACIA.set_reg_call, ACIA.trigger_irq, hq, hrdrf, hctl,
      Bind.bind, Except.bind]
  · simp [ACIA.poll, ACIA.set_reg_call, ACIA.trigger_irq, hq, hrdrf, hctl,
      Bind.bind, Except.bind]

/-- C6 (amended): `poll` is a no-op when no serial port is attached; when one
is attached it first transfers every byte the port has available into the
input queue (this happens even when RDRF is already set, so a RDRF-set poll
is NOT state-preserving); then, if RDRF is clear and the queue non-empty, it
dequeues exactly one byte into the receive register and sets RDRF, and it
raises the IRQ status bit if and only if bits 3:2 of the *control* register
equal `01` (the command register plays no part); a successful poll is
idempotent: polling the resulting state again returns it unchanged. -/
theorem poll_spec (st : AciaState) (b : ℕ) (rest : List ℕ)
    (hsp : st.serial_attached = true) (hcb : st.set_reg_cb = true)
    (hrdrf : st.status_reg &&& 8 = 0) (hirq : st.status_reg &&& 128 = 0)
    (hq : st.in_buffer ++ st.serial_in = b :: rest) :
    (∀ s, s.serial_attached = false → ACIA.poll s = .ok s) ∧
    (∀ s, s.serial_attached = true → ¬ s.status_reg &&& 8 = 0 →
      ACIA.poll s = .ok { s with in_buffer := s.in_buffer ++ s.serial_in, serial_in := [] }) ∧
    ACIA.poll st = .ok (okOr (ACIA.poll st) st) ∧
    (okOr (ACIA.poll st) st).recv_data = b ∧
    (okOr (ACIA.poll st) st).in_buffer = rest ∧
    (okOr (ACIA.poll st) st).serial_in = [] ∧
    ¬ (okOr (ACIA.poll st) st).status_reg &&& 8 = 0 ∧
    (¬ (okOr (ACIA.poll st) st).status_reg &&& 128 = 0 ↔ st.control_reg &&& 12 = 4) ∧
    ACIA.poll (okOr (ACIA.poll st) st) = .ok (okOr (ACIA.poll st) st) := by
  have ht7 : st.status_reg.testBit 7 = false := (and128_eq_iff _).mp hirq
  refine ⟨fun s hs => poll_not_attached s hs, fun s h1 h2 => poll_rdrf_set s h1 h2, ?_⟩
  rw [poll_ok_eq st b rest hsp hcb hrdrf hq]
  by_cases hctl : st.control_reg &&& 12 = 4
  · rw [if_pos hctl]
    have h8 : ¬ (((st.status_reg ||| 8) ||| 144) &&& 8 = 0) :=
      (and8_ne_iff _).mpr (by rw [testBit3_or144, testBit3_or8])
    have h128 : ¬ (((st.status_reg ||| 8) ||| 144) &&& 128 = 0) :=
      (and128_ne_iff _).mpr (testBit7_or144 _)
    simp only [okOr]
    refine ⟨trivial, trivial, trivial, trivial, h8, iff_of_true h128 hctl, ?_⟩
    refine (poll_rdrf_set ?_ ?_ ?_).trans ?_
    · exact hsp
    · exact h8
    · simp
  · rw [if_neg hctl]
    have h8 : ¬ ((st.status_reg ||| 8) &&& 8 = 0) :=
      (and8_ne_iff _).mpr (by rw [testBit3_or8])
    have h128 : (st.status_reg ||| 8) &&& 128 = 0 := by
      rw [and128_eq_iff, testBit7_or8]
      exact ht7
    simp only [okOr]
    refine ⟨trivial, trivial, trivial, trivial, h8, iff_of_false (by simpa using h128) hctl, ?_⟩
    refine (poll_rdrf_set ?_ ?_ ?_).trans ?_
    · exact hsp
    · exact h8
    · simp

/-- C6 witness: `poll_spec` at the concrete state `pollDemoB` (port attached,
RDRF clear, byte 0x41 queued): the byte is dequeued into the receive
register. -/
theorem poll_spec_witness :
    (okOr (ACIA.poll pollDemoB) pollDemoB).recv_data = 0x41 :=
  (poll_spec pollDemoB 0x41 [] (by decide) (by decide) (by decide) (by decide)
    (by decide)).2.2.2.1

/-- C6 counterexample: (a) at `pollDemoA` RDRF is set, yet `poll` changes
state — the serial port's pending byte moves into the input queue; (b) at
`pollDemoB` the command register is entirely zero, so whichever bit the
claim's "receiver-interrupt-enable bit of the command register" denotes is
clear, yet `poll` raises the IRQ status bit (control bits 3:2 are 01) —
refuting both the "RDRF set ⇒ no state change" and the "interrupt iff
command-register bit" parts of the claim. -/
theorem poll_claim_counterexample :
    pollDemoA.status_reg &&& 8 ≠ 0 ∧
    (okOr (ACIA.poll pollDemoA) pollDemoA).in_buffer = [0x41] ∧
    ¬ (okOr (ACIA.poll pollDemoA) pollDemoA) = pollDemoA ∧
    pollDemoB.command_reg = 0 ∧
    (okOr (ACIA.poll pollDemoB) pollDemoB).status_reg.testBit 7 = true ∧
    pollDemoB.status_reg.testBit 7 = false := by decide
